import Mathlib

/-!
Verification development for the Phantom mobile wallet adapter
(`PhantomContextProvider` and its helpers).

The provider keeps four pieces of React state — `publicKey`, `keypair`,
`sharedSecret`, `session` — and exposes `connect`, `signTransaction`,
`signMessage` and `disconnect`.  Requests are dispatched through
`Linking.openURL` and responses arrive as inbound URL events consumed by
`waitForResponse`.

External libraries (tweetnacl, bs58, JSON, the Solana PublicKey and
Transaction classes, the URL class) are not part of the repository; they
are modelled from the spec, each with a doc comment saying exactly what is
abstracted.  The repository functions (`decryptPayload`, `encryptPayload`,
`waitForResponse`, `connect`, `signTransaction`, `signMessage`,
`disconnect`, `buildUrl`) are translated statement by statement from the
source, with React state updates made explicit state passing.  A React
state setter takes effect even when the event handler throws later, so a
handler is modelled as a function returning both an `Except` outcome and
the provider state after whatever setters ran before the throw.
-/

set_option maxRecDepth 100000

namespace Phantom

/-- Byte strings are modelled as lists of natural numbers. -/
abbrev Bytes := List Nat

/-- Query parameters of a URL, in order; `get` returns the first binding. -/
abbrev Params := List (String × String)

/-- First binding of `key` in a parameter list (`URLSearchParams.get`;
`none` models the null returned for an absent key). -/
def findParam (key : String) : Params → Option String
  | [] => none
  | (k, v) :: rest => if k = key then some v else findParam key rest

/-- JS truthiness of `params.get(k)`: null is falsy and so is the empty
string, so `if (params.get(k))` runs its branch exactly for a present,
non-empty value. -/
def jsTruthy : Option String → Bool
  | none => false
  | some s => s != ""

/-- Whether `needle` occurs as a contiguous run inside `haystack`. -/
def substrAux (needle : List Char) : List Char → Bool
  | [] => needle.isEmpty
  | c :: rest => needle.isPrefixOf (c :: rest) || substrAux needle rest

/-- The route test of `waitForResponse`:
`new RegExp(redirectRoute).test(parsedUrl.pathname)`.  The route strings of
this provider (onConnect, onSignTransaction, onSignMessage) contain no
regular-expression metacharacters, so the test is a substring match. -/
def routeMatches (route path : String) : Bool :=
  substrAux route.data path.data

/-- Error taxonomy of the provider, one constructor per distinct throw site:
remoteError is the rejection with message Error in Phantom Response,
decryptionFailed the throw with message Unable to decrypt data,
notConnected the throw with message Wallet is not connected,
malformedEncoding a throw raised by base-58 decoding of absent or invalid
text, malformedPayload a JSON.parse failure, invalidKey a throw raised by
key-material validation (nacl key sizes, the PublicKey constructor). -/
inductive Err where
  | remoteError
  | decryptionFailed
  | notConnected
  | malformedEncoding
  | malformedPayload
  | invalidKey
deriving DecidableEq

/-- Decidable equality of promise outcomes. -/
instance exceptDecEq {ε α : Type} [DecidableEq ε] [DecidableEq α] :
    DecidableEq (Except ε α) := fun x y =>
  match x, y with
  | .ok a, .ok b =>
    if h : a = b then isTrue (by rw [h])
    else isFalse (by intro hh; cases hh; exact h rfl)
  | .error a, .error b =>
    if h : a = b then isTrue (by rw [h])
    else isFalse (by intro hh; cases hh; exact h rfl)
  | .ok _, .error _ => isFalse (by intro hh; cases hh)
  | .error _, .ok _ => isFalse (by intro hh; cases hh)

/-- A JSON value as used by the wire payloads of this provider: every
payload field is either a string or null. -/
inductive JsonVal where
  | jnull
  | jstr (s : String)
deriving DecidableEq

/-- A JSON object: an ordered list of string-keyed fields. -/
abbrev JsonObj := List (String × JsonVal)

/-- First field named `key` of a JSON object (JS property access; `none`
models undefined). -/
def findField (key : String) : JsonObj → Option JsonVal
  | [] => none
  | (k, v) :: rest => if k = key then some v else findField key rest

/-- Modelled from the spec: `encodePayload` (JSON.stringify followed by
Buffer.from) — a canonical byte serialization of a structured payload.  A
string is length-prefixed code points, a value is a tag byte followed by
its encoding, an object is a field count followed by the fields. -/
def encStr (s : String) : Bytes :=
  s.data.length :: s.data.map Char.toNat

/-- Decode one length-prefixed string from the front of a byte list. -/
def decStr : Bytes → Option (String × Bytes)
  | [] => none
  | n :: rest =>
    if n ≤ rest.length then
      some (String.mk ((rest.take n).map Char.ofNat), rest.drop n)
    else none

/-- Serialize one JSON value (tag 0 = null, tag 1 = string). -/
def encJsonVal : JsonVal → Bytes
  | .jnull => [0]
  | .jstr s => 1 :: encStr s

/-- Decode one JSON value from the front of a byte list. -/
def decJsonVal : Bytes → Option (JsonVal × Bytes)
  | 0 :: rest => some (.jnull, rest)
  | 1 :: rest =>
    match decStr rest with
    | some (s, r) => some (.jstr s, r)
    | none => none
  | _ => none

/-- Serialize the fields of a JSON object in order. -/
def encFields : JsonObj → Bytes
  | [] => []
  | (k, v) :: fs => encStr k ++ encJsonVal v ++ encFields fs

/-- Decode exactly `n` fields from the front of a byte list. -/
def decFields : Nat → Bytes → Option (JsonObj × Bytes)
  | 0, rest => some ([], rest)
  | n + 1, rest =>
    match decStr rest with
    | none => none
    | some (k, r1) =>
      match decJsonVal r1 with
      | none => none
      | some (v, r2) =>
        match decFields n r2 with
        | none => none
        | some (fs, r3) => some ((k, v) :: fs, r3)

/-- Modelled from the spec: `encodePayload` — the byte form of a payload
object (JSON.stringify, then UTF-8 bytes). -/
def encodePayload (o : JsonObj) : Bytes :=
  o.length :: encFields o

/-- Modelled from the spec: `decodePayload` (JSON.parse) — fails on bytes
that do not parse as a payload object, including trailing garbage. -/
def decodePayload (b : Bytes) : Option JsonObj :=
  match b with
  | [] => none
  | n :: rest =>
    match decFields n rest with
    | some (o, []) => some o
    | _ => none

/-- Length-prefixed block, used by the symbolic cipher below. -/
def encB (b : Bytes) : Bytes := b.length :: b

/-- Decode one length-prefixed block from the front of a byte list. -/
def decB : Bytes → Option (Bytes × Bytes)
  | [] => none
  | n :: rest =>
    if n ≤ rest.length then some (rest.take n, rest.drop n) else none

/-- Modelled from the spec: `nacl.box.after` — authenticated symmetric
encryption under a shared secret and a nonce.  Modelled symbolically: the
ciphertext determines the nonce, key and plaintext it was sealed with, and
nothing else opens it.  Secrecy is not modelled (no claim concerns it);
the claims need only the functional round-trip and the
authentication-failure behaviour of 4.1 of the spec. -/
def nacl_box_after (plaintext nonce key : Bytes) : Bytes :=
  encB nonce ++ encB key ++ plaintext

/-- Modelled from the spec: `nacl.box.open.after` — authenticated
decryption; returns the plaintext exactly when the ciphertext was sealed
under the same nonce and key, and fails (null) otherwise: tampered
ciphertext, wrong key, or wrong nonce. -/
def nacl_box_open_after (ct nonce key : Bytes) : Option Bytes :=
  match decB ct with
  | none => none
  | some (n, rest) =>
    match decB rest with
    | none => none
    | some (k, pt) => if n = nonce ∧ k = key then some pt else none

/-- Modelled from the spec: `nacl.box.before` (deriveSharedSecret) — a
deterministic function of the peer public key and the own secret key,
failing on key material of the wrong length (InvalidKey).  The
Diffie-Hellman agreement equation is not modelled; no claim depends on
it. -/
def nacl_box_before (peerPublicKey ownSecretKey : Bytes) : Except Err Bytes :=
  if peerPublicKey.length = 32 ∧ ownSecretKey.length = 32 then
    .ok (encB peerPublicKey ++ encB ownSecretKey)
  else .error .invalidKey

/-- Modelled from the spec: `bs58.encode` (Codec.encodeBinary) — a
reversible text encoding of a byte string.  The base-58 big-number
arithmetic is replaced by a unary digit encoding over a two-character
alphabet; the claims need only reversibility and failure on text outside
the alphabet. -/
def encChars : Bytes → List Char
  | [] => []
  | n :: rest => List.replicate n '1' ++ '0' :: encChars rest

/-- The text form of a byte string (see `encChars`). -/
def bs58encodeS (b : Bytes) : String := String.mk (encChars b)

/-- Decoding loop of `bs58decodeS`: `count` code units of the current byte
have been consumed.  Fails on a character outside the alphabet or on a
byte left unterminated at the end of the text. -/
def decCharsAux : List Char → Nat → Option Bytes
  | [], 0 => some []
  | [], _ + 1 => none
  | '1' :: rest, c => decCharsAux rest (c + 1)
  | '0' :: rest, c =>
    match decCharsAux rest 0 with
    | some ns => some (c :: ns)
    | none => none
  | _ :: _, _ => none

/-- Modelled from the spec: `bs58.decode` (Codec.decodeBinary) — inverse
of `bs58encodeS`; fails (throws MalformedEncoding) on invalid text. -/
def bs58decodeS (s : String) : Option Bytes :=
  decCharsAux s.data 0

/-- The function `decryptPayload` of the source: base-58 decode the data and nonce
text, open the box under the shared secret — throwing with message Unable
to decrypt data when opening fails — and JSON-parse the plaintext. -/
def decryptPayload (data : String) (nonce : String) (sharedSecret : Bytes) :
    Except Err JsonObj :=
  match bs58decodeS data with
  | none => .error .malformedEncoding
  | some d =>
    match bs58decodeS nonce with
    | none => .error .malformedEncoding
    | some n =>
      match nacl_box_open_after d n sharedSecret with
      | none => .error .decryptionFailed
      | some pt =>
        match decodePayload pt with
        | none => .error .malformedPayload
        | some obj => .ok obj

/-- The function `encryptPayload` of the source: serialize the payload and seal it
under the shared secret with a fresh random 24-byte nonce.  The call to
`nacl.randomBytes(24)` is modelled by taking the freshly drawn nonce as an
explicit argument. -/
def encryptPayload (payload : JsonObj) (sharedSecret : Bytes) (nonce : Bytes) :
    Bytes × Bytes :=
  (nonce, nacl_box_after (encodePayload payload) nonce sharedSecret)

/-- An inbound Linking url event, after the rewrite of the custom scheme
prefix to the https form and parsing by the URL class (external code):
the pathname and the query parameters of the callback URL. -/
structure InboundEvent where
  pathname : String
  params : Params
deriving DecidableEq

/-- One waiter of `waitForResponse`: the pending promise outcome, the
provider state as seen through the React state setters the handler may
call, whether the Linking subscription is still registered, and how many
times `event.remove()` has run. -/
structure WaiterState (σ α : Type) where
  outcome : Option (Except Err α)
  state : σ
  subscribed : Bool
  removeCount : Nat

/-- State of a fresh `waitForResponse` call: promise pending, listener
registered, `event.remove()` not yet called. -/
def waiterInit {σ α : Type} (s : σ) : WaiterState σ α :=
  ⟨none, s, true, 0⟩

/-- Delivery of one inbound url event to the listener of
`waitForResponse`.  A non-matching pathname returns without effect.  On
the first match, a present non-empty errorCode parameter rejects with
remoteError; otherwise the handler runs (possibly updating provider state
and possibly throwing) and the promise resolves with its result or rejects
with its error.  The `finally` of the source removes the subscription on
settlement; it is modelled as taking effect before the next event is
examined. -/
def waiterStep {σ α : Type} (route : String)
    (handler : Params → σ → Except Err α × σ)
    (w : WaiterState σ α) (e : InboundEvent) : WaiterState σ α :=
  if w.subscribed then
    if routeMatches route e.pathname then
      if jsTruthy (findParam "errorCode" e.params) then
        { w with
          outcome := some (.error .remoteError)
          subscribed := false
          removeCount := w.removeCount + 1 }
      else
        { outcome := some (handler e.params w.state).1
          state := (handler e.params w.state).2
          subscribed := false
          removeCount := w.removeCount + 1 }
    else w
  else w

/-- The listener of one `waitForResponse` call applied to a whole inbound
event stream, in order. -/
def waiterRun {σ α : Type} (route : String)
    (handler : Params → σ → Except Err α × σ)
    (events : List InboundEvent) (w : WaiterState σ α) : WaiterState σ α :=
  events.foldl (waiterStep route handler) w

/-- The function `waitForResponse` of the source over an explicit inbound event stream:
the settled outcome of the promise (`none` when no matching event ever
arrives and the promise stays pending) together with the provider state
after any handler effects. -/
def waitForResponse {σ α : Type} (route : String)
    (handler : Params → σ → Except Err α × σ)
    (events : List InboundEvent) (s : σ) : Option (Except Err α) × σ :=
  let w := waiterRun route handler events (waiterInit s)
  (w.outcome, w.state)

/-- Wallet name constant of the source. -/
def PhantomWalletName : String := "Phantom"

/-- Wallet url constant of the source. -/
def PhantomWalletUrl : String := "https://phantom.app/"

/-- The cluster enum of the source. -/
inductive Cluster where
  | mainnet
  | devnet
deriving DecidableEq

/-- String value of a cluster enum member. -/
def clusterStr : Cluster → String
  | .mainnet => "mainnet-beta"
  | .devnet => "devnet"

/-- Props of `PhantomContextProvider` that the operations read: the
cluster, the app url and the custom url scheme prefix. -/
structure Config where
  cluster : Cluster
  appUrl : String
  protocol : String
deriving DecidableEq

/-- A Solana public key (the PublicKey class): 32 bytes. -/
structure PubKey where
  bytes : Bytes
deriving DecidableEq

/-- A nacl box keypair (`nacl.box.keyPair()`). -/
structure BoxKeyPair where
  publicKey : Bytes
  secretKey : Bytes
deriving DecidableEq

/-- The four pieces of React state of the provider, each initially null:
`useState` of publicKey, keypair, sharedSecret and session. -/
structure WalletState where
  publicKey : Option PubKey
  keypair : Option BoxKeyPair
  sharedSecret : Option Bytes
  session : Option String
deriving DecidableEq

/-- The initial provider state: all four fields null. -/
def initialState : WalletState :=
  ⟨none, none, none, none⟩

/-- The JSON value the source puts in a request payload for the session
field: the session string, or null when the session state is null. -/
def sessionJson : Option String → JsonVal
  | none => .jnull
  | some s => .jstr s

/-- What `setSession(connectData.session)` stores: the string when the
decrypted payload carries a string, and null (undefined or JSON null)
otherwise. -/
def sessionOfJson : Option JsonVal → Option String
  | some (.jstr s) => some s
  | _ => none

/-- Modelled from the spec: `new PublicKey(value)` on a decrypted payload
field — base-58 decodes a string to exactly 32 bytes and throws on null,
undefined or malformed input. -/
def publicKeyFromJson : Option JsonVal → Except Err PubKey
  | some (.jstr s) =>
    match bs58decodeS s with
    | some b => if b.length = 32 then .ok ⟨b⟩ else .error .invalidKey
    | none => .error .invalidKey
  | _ => .error .invalidKey

/-- Reading `bs58.decode(params.get(key)!)`: throws when the parameter is absent
(decode of null) or its text is invalid. -/
def getB58Param (params : Params) (key : String) : Except Err Bytes :=
  match findParam key params with
  | none => .error .malformedEncoding
  | some v =>
    match bs58decodeS v with
    | none => .error .malformedEncoding
    | some b => .ok b

/-- A fully formed request locator, as assembled by `buildUrl`:
`PhantomWalletUrl ++ "ul/v1/" ++ path ++ "?" ++ params`.  Kept structured;
the textual flattening of `URLSearchParams.toString` is external code. -/
structure Request where
  base : String
  path : String
  params : Params
deriving DecidableEq

/-- The function `buildUrl` of the source. -/
def buildUrl (path : String) (params : Params) : Request :=
  ⟨PhantomWalletUrl ++ "ul/v1/", path, params⟩

/-- An observable interaction with the transport collaborator: registering
a Linking url listener, or dispatching a request with `Linking.openURL`. -/
inductive Effect where
  | subscribe (route : String)
  | openURL (req : Request)
deriving DecidableEq

/-- Result of running one provider operation against an inbound event
stream: the settled promise outcome (`none` while pending), the provider
state afterwards, and the transport effects in program order. -/
structure OpResult (α : Type) where
  outcome : Option (Except Err α)
  state : WalletState
  effects : List Effect
deriving DecidableEq

/-- The `onResponse` handler of `connect`, line by line: base-58 decode
the phantom_encryption_public_key parameter, derive the shared secret from
it and the dapp secret key, decrypt the data parameter under the nonce
parameter, then run the four React state setters in source order —
`setKeypair`, `setSharedSecret`, `setSession`, and finally `setPublicKey`
applied to `new PublicKey(connectData.public_key)`.  A throw of the
PublicKey constructor happens after the first three setters have taken
effect, so the state they wrote survives the rejection. -/
def connectOnResponse (dAppKeypair : BoxKeyPair) (params : Params)
    (s : WalletState) : Except Err Unit × WalletState :=
  match getB58Param params "phantom_encryption_public_key" with
  | .error e => (.error e, s)
  | .ok peer =>
    match nacl_box_before peer dAppKeypair.secretKey with
    | .error e => (.error e, s)
    | .ok sharedSecretDapp =>
      match findParam "data" params, findParam "nonce" params with
      | some dataText, some nonceText =>
        match decryptPayload dataText nonceText sharedSecretDapp with
        | .error e => (.error e, s)
        | .ok connectData =>
          let s1 : WalletState :=
            { s with
              keypair := some dAppKeypair
              sharedSecret := some sharedSecretDapp
              session := sessionOfJson (findField "session" connectData) }
          match publicKeyFromJson (findField "public_key" connectData) with
          | .error e => (.error e, s1)
          | .ok pk => (.ok (), { s1 with publicKey := some pk })
      | _, _ => (.error .malformedEncoding, s)

/-- The operation `connect` of the source: generate a fresh keypair (modelled as the
`dAppKeypair` argument), create the waiter for the onConnect route, build
the connect request and dispatch it with `Linking.openURL`. -/
def connectOp (cfg : Config) (dAppKeypair : BoxKeyPair)
    (events : List InboundEvent) (s : WalletState) : OpResult Unit :=
  let requestParams : Params :=
    [("dapp_encryption_public_key", bs58encodeS dAppKeypair.publicKey),
     ("cluster", clusterStr cfg.cluster),
     ("app_url", cfg.appUrl),
     ("redirect_link", cfg.protocol ++ "onConnect")]
  let w := waitForResponse "onConnect" (connectOnResponse dAppKeypair)
    events s
  { outcome := w.1
    state := w.2
    effects := [.subscribe "onConnect",
      .openURL (buildUrl "connect" requestParams)] }

/-- The `onResponse` handler of `signTransaction`: decrypt the data
parameter under the nonce parameter and the session shared secret, read
the transaction field, base-58 decode it and deserialize
(`Transaction.from`, external code, modelled as the decoded bytes).  Calls
no React state setter. -/
def signTransactionOnResponse (sharedSecret : Bytes) (params : Params) :
    Except Err Bytes :=
  match findParam "data" params, findParam "nonce" params with
  | some dataText, some nonceText =>
    match decryptPayload dataText nonceText sharedSecret with
    | .error e => .error e
    | .ok obj =>
      match findField "transaction" obj with
      | some (.jstr t) =>
        match bs58decodeS t with
        | some b => .ok b
        | none => .error .malformedEncoding
      | _ => .error .malformedEncoding
  | _, _ => .error .malformedEncoding

/-- The operation `signTransaction` of the source.  The input transaction is its
serialized byte form (`transaction.serialize` is external code on an
opaque blob); the fresh `nacl.randomBytes(24)` nonce is an argument.  The
guard `if (!sharedSecret || !keypair || !sharedSecret)` throws Wallet is
not connected before the waiter is created and before `Linking.openURL`
runs; the session state is never tested.  On the connected path the
payload is the JSON object with the session field (null when the session
state is null) and the serialized transaction, encrypted under the shared
secret. -/
def signTransactionOp (cfg : Config) (s : WalletState)
    (transaction : Bytes) (nonce : Bytes) (events : List InboundEvent) :
    OpResult Bytes :=
  let serializedTransaction := bs58encodeS transaction
  match s.sharedSecret, s.keypair with
  | some sharedSecret, some keypair =>
    let payload : JsonObj :=
      [("session", sessionJson s.session),
       ("transaction", .jstr serializedTransaction)]
    let ne := encryptPayload payload sharedSecret nonce
    let requestParams : Params :=
      [("dapp_encryption_public_key", bs58encodeS keypair.publicKey),
       ("nonce", bs58encodeS ne.1),
       ("redirect_link", cfg.protocol ++ "onSignTransaction"),
       ("payload", bs58encodeS ne.2)]
    let url := buildUrl "signTransaction" requestParams
    let w := waitForResponse "onSignTransaction"
      (fun p st => (signTransactionOnResponse sharedSecret p, st)) events s
    { outcome := w.1
      state := w.2
      effects := [.subscribe "onSignTransaction", .openURL url] }
  | _, _ => { outcome := some (.error .notConnected), state := s, effects := [] }

/-- The response handler of `signMessage`: decrypt the data parameter,
read the signature field and base-58 decode it.  Calls no React state
setter. -/
def signMessageOnResponse (sharedSecret : Bytes) (params : Params) :
    Except Err Bytes :=
  match findParam "data" params, findParam "nonce" params with
  | some dataText, some nonceText =>
    match decryptPayload dataText nonceText sharedSecret with
    | .error e => .error e
    | .ok obj =>
      match findField "signature" obj with
      | some (.jstr t) =>
        match bs58decodeS t with
        | some b => .ok b
        | none => .error .malformedEncoding
      | _ => .error .malformedEncoding
  | _, _ => .error .malformedEncoding

/-- The operation `signMessage` of the source, same shape as `signTransaction`: the same
connectedness guard first, then a payload with the session field and the
base-58 encoded message, encrypted and dispatched, with the waiter on the
onSignMessage route created before `Linking.openURL`. -/
def signMessageOp (cfg : Config) (s : WalletState)
    (message : Bytes) (nonce : Bytes) (events : List InboundEvent) :
    OpResult Bytes :=
  match s.sharedSecret, s.keypair with
  | some sharedSecret, some keypair =>
    let payload : JsonObj :=
      [("session", sessionJson s.session),
       ("message", .jstr (bs58encodeS message))]
    let ne := encryptPayload payload sharedSecret nonce
    let requestParams : Params :=
      [("dapp_encryption_public_key", bs58encodeS keypair.publicKey),
       ("nonce", bs58encodeS ne.1),
       ("redirect_link", cfg.protocol ++ "onSignMessage"),
       ("payload", bs58encodeS ne.2)]
    let w := waitForResponse "onSignMessage"
      (fun p st => (signMessageOnResponse sharedSecret p, st)) events s
    { outcome := w.1
      state := w.2
      effects := [.subscribe "onSignMessage",
        .openURL (buildUrl "signMessage" requestParams)] }
  | _, _ => { outcome := some (.error .notConnected), state := s, effects := [] }

/-- The operation `disconnect` of the source: set all four pieces of state to null.  It
touches the transport in no way, so its effect trace is empty. -/
def disconnectOp (_s : WalletState) : WalletState × List Effect :=
  (⟨none, none, none, none⟩, [])

/-- The value published through `PhantomContext.Provider`: the constant
presentation fields and flags together with the current publicKey state. -/
structure ContextValue where
  name : String
  url : String
  readyState : String
  connected : Bool
  connecting : Bool
  autoConnect : Bool
  disconnecting : Bool
  publicKey : Option PubKey
deriving DecidableEq

/-- The provider context value as a function of the provider state: the
source fixes `connecting = false` and `connected = true` as constants
(lines 95 and 96) and never calls a setter for them. -/
def contextValue (s : WalletState) : ContextValue :=
  { name := PhantomWalletName
    url := PhantomWalletUrl
    readyState := "Installed"
    connected := true
    connecting := false
    autoConnect := true
    disconnecting := false
    publicKey := s.publicKey }

-- Round-trip lemmas for the codecs.

theorem decStr_encStr (s : String) (r : Bytes) :
    decStr (encStr s ++ r) = some (s, r) := by
  unfold encStr decStr
  simp only [List.cons_append]
  have hlen : s.data.length ≤ (s.data.map Char.toNat ++ r).length := by
    simp [List.length_append]
  rw [if_pos hlen]
  have htake : (s.data.map Char.toNat ++ r).take s.data.length
      = s.data.map Char.toNat := by
    have := List.take_left (s.data.map Char.toNat) r
    simp only [List.length_map] at this
    exact this
  have hdrop : (s.data.map Char.toNat ++ r).drop s.data.length = r := by
    have := List.drop_left (s.data.map Char.toNat) r
    simp only [List.length_map] at this
    exact this
  rw [htake, hdrop]
  congr 1
  congr 1
  rw [List.map_map]
  have : (Char.ofNat ∘ Char.toNat) = (id : Char → Char) := by
    funext c
    simp [Char.ofNat_toNat]
  rw [this, List.map_id]

theorem decJsonVal_encJsonVal (v : JsonVal) (r : Bytes) :
    decJsonVal (encJsonVal v ++ r) = some (v, r) := by
  cases v with
  | jnull => rfl
  | jstr s =>
    show decJsonVal (1 :: (encStr s ++ r)) = some (.jstr s, r)
    simp [decJsonVal, decStr_encStr]

theorem decFields_encFields (fs : JsonObj) (r : Bytes) :
    decFields fs.length (encFields fs ++ r) = some (fs, r) := by
  induction fs generalizing r with
  | nil => rfl
  | cons f rest ih =>
    obtain ⟨k, v⟩ := f
    show decFields (rest.length + 1)
        ((encStr k ++ encJsonVal v ++ encFields rest) ++ r)
      = some ((k, v) :: rest, r)
    simp [decFields, List.append_assoc, decStr_encStr,
      decJsonVal_encJsonVal, ih]

theorem decodePayload_encodePayload (o : JsonObj) :
    decodePayload (encodePayload o) = some o := by
  have h := decFields_encFields o []
  rw [List.append_nil] at h
  simp [encodePayload, decodePayload, h]

theorem decB_encB (b : Bytes) (r : Bytes) :
    decB (encB b ++ r) = some (b, r) := by
  unfold encB decB
  simp only [List.cons_append]
  rw [if_pos (by simp [List.length_append])]
  rw [List.take_left, List.drop_left]

theorem nacl_box_roundtrip (pt nonce key : Bytes) :
    nacl_box_open_after (nacl_box_after pt nonce key) nonce key = some pt := by
  simp [nacl_box_after, nacl_box_open_after, List.append_assoc, decB_encB]

theorem decCharsAux_replicate (n : Nat) (l : List Char) (c : Nat) :
    decCharsAux (List.replicate n '1' ++ l) c = decCharsAux l (c + n) := by
  induction n generalizing c with
  | zero => simp [List.replicate]
  | succ m ih =>
    show decCharsAux ('1' :: (List.replicate m '1' ++ l)) c = _
    rw [show decCharsAux ('1' :: (List.replicate m '1' ++ l)) c
        = decCharsAux (List.replicate m '1' ++ l) (c + 1) from rfl]
    rw [ih]
    congr 1
    omega

theorem bs58_roundtrip (b : Bytes) :
    bs58decodeS (bs58encodeS b) = some b := by
  unfold bs58encodeS bs58decodeS
  show decCharsAux (encChars b) 0 = some b
  induction b with
  | nil => rfl
  | cons n rest ih =>
    show decCharsAux (List.replicate n '1' ++ '0' :: encChars rest) 0 = _
    rw [decCharsAux_replicate]
    show (match decCharsAux (encChars rest) 0 with
      | some ns => some ((0 + n) :: ns)
      | none => none) = some (n :: rest)
    rw [ih]
    simp

theorem decryptPayload_encryptPayload (p : JsonObj) (s nonce : Bytes) :
    decryptPayload (bs58encodeS (encryptPayload p s nonce).2)
      (bs58encodeS (encryptPayload p s nonce).1) s = .ok p := by
  simp [encryptPayload, decryptPayload, bs58_roundtrip, nacl_box_roundtrip,
    decodePayload_encodePayload]

-- Basic waiter lemmas.

theorem waiterStep_unsubscribed {σ α : Type} (route : String)
    (handler : Params → σ → Except Err α × σ) (w : WaiterState σ α)
    (e : InboundEvent) (h : w.subscribed = false) :
    waiterStep route handler w e = w := by
  unfold waiterStep
  rw [h]
  simp

theorem waiterRun_unsubscribed {σ α : Type} (route : String)
    (handler : Params → σ → Except Err α × σ) (events : List InboundEvent)
    (w : WaiterState σ α) (h : w.subscribed = false) :
    waiterRun route handler events w = w := by
  induction events with
  | nil => rfl
  | cons e rest ih =>
    show waiterRun route handler rest (waiterStep route handler w e) = w
    rw [waiterStep_unsubscribed route handler w e h, ih]

theorem waiterStep_nomatch {σ α : Type} (route : String)
    (handler : Params → σ → Except Err α × σ) (w : WaiterState σ α)
    (e : InboundEvent) (h : routeMatches route e.pathname = false) :
    waiterStep route handler w e = w := by
  unfold waiterStep
  rw [h]
  simp

theorem waiterRun_nomatch {σ α : Type} (route : String)
    (handler : Params → σ → Except Err α × σ) :
    ∀ (events : List InboundEvent) (w : WaiterState σ α),
      (∀ e ∈ events, routeMatches route e.pathname = false) →
      waiterRun route handler events w = w
  | [], _, _ => rfl
  | e :: rest, w, h => by
    show waiterRun route handler rest (waiterStep route handler w e) = w
    rw [waiterStep_nomatch route handler w e (h e (List.mem_cons_self e rest))]
    exact waiterRun_nomatch route handler rest w
      (fun x hx => h x (List.mem_cons_of_mem e hx))

theorem waiterStep_state {σ α : Type} (route : String)
    (handler : Params → σ → Except Err α × σ) (w : WaiterState σ α)
    (e : InboundEvent) (hh : ∀ p st, (handler p st).2 = st) :
    (waiterStep route handler w e).state = w.state := by
  unfold waiterStep
  split
  · split
    · split
      · rfl
      · exact hh e.params w.state
    · rfl
  · rfl

theorem waiterRun_state_const {σ α : Type} (route : String)
    (handler : Params → σ → Except Err α × σ)
    (hh : ∀ p st, (handler p st).2 = st) :
    ∀ (events : List InboundEvent) (w : WaiterState σ α),
      (waiterRun route handler events w).state = w.state
  | [], _ => rfl
  | e :: rest, w => by
    show (waiterRun route handler rest (waiterStep route handler w e)).state
      = w.state
    rw [waiterRun_state_const route handler hh rest
      (waiterStep route handler w e)]
    exact waiterStep_state route handler w e hh

theorem waiterRun_filter {σ α : Type} (route : String)
    (handler : Params → σ → Except Err α × σ) :
    ∀ (events : List InboundEvent) (w : WaiterState σ α),
      waiterRun route handler events w
        = waiterRun route handler
          (events.filter (fun e => routeMatches route e.pathname)) w
  | [], _ => rfl
  | e :: rest, w => by
    by_cases hm : routeMatches route e.pathname
    · show waiterRun route handler rest (waiterStep route handler w e) = _
      have hf : List.filter (fun x => routeMatches route x.pathname) (e :: rest)
          = e :: List.filter (fun x => routeMatches route x.pathname) rest := by
        simp [List.filter_cons, hm]
      rw [hf]
      exact waiterRun_filter route handler rest (waiterStep route handler w e)
    · show waiterRun route handler rest (waiterStep route handler w e) = _
      have hf : List.filter (fun x => routeMatches route x.pathname) (e :: rest)
          = List.filter (fun x => routeMatches route x.pathname) rest := by
        simp [List.filter_cons, hm]
      rw [hf, waiterStep_nomatch route handler w e (by simpa using hm)]
      exact waiterRun_filter route handler rest w

theorem waiterRun_outcome_not {σ α : Type} (route : String)
    (handler : Params → σ → Except Err α × σ) (E : Err)
    (hE : E ≠ .remoteError)
    (hh : ∀ p st, (handler p st).1 ≠ .error E) :
    ∀ (events : List InboundEvent) (w : WaiterState σ α),
      w.outcome ≠ some (.error E) →
      (waiterRun route handler events w).outcome ≠ some (.error E)
  | [], _, hw => hw
  | e :: rest, w, hw => by
    show (waiterRun route handler rest (waiterStep route handler w e)).outcome
      ≠ some (.error E)
    apply waiterRun_outcome_not route handler E hE hh rest
    unfold waiterStep
    split
    · split
      · split
        · intro hcon
          apply hE
          injection hcon with h1
          injection h1 with h2
          exact h2.symm
        · intro hcon
          injection hcon with h1
          exact hh e.params w.state h1
      · exact hw
    · exact hw

/-- The step of a freshly created waiter at a matching event: settlement
with either the remote rejection or the handler result, the subscription
removed. -/
theorem waiterStep_first_match {σ α : Type} (route : String)
    (handler : Params → σ → Except Err α × σ) (e : InboundEvent) (s : σ)
    (he : routeMatches route e.pathname = true) :
    waiterStep route handler (waiterInit s : WaiterState σ α) e
      = (if jsTruthy (findParam "errorCode" e.params) then
          ⟨some (.error .remoteError), s, false, 1⟩
        else
          ⟨some (handler e.params s).1, (handler e.params s).2, false, 1⟩) := by
  unfold waiterStep waiterInit
  rw [he]
  simp

/-- The settlement invariant of one waiter: the listener is registered
exactly while the promise is pending, and `event.remove()` has run exactly
once as soon as the promise has settled. -/
def waiterInv {σ α : Type} (w : WaiterState σ α) : Prop :=
  w.subscribed = w.outcome.isNone ∧
  w.removeCount = (if w.outcome.isSome then 1 else 0)

theorem waiterStep_inv {σ α : Type} (route : String)
    (handler : Params → σ → Except Err α × σ) (w : WaiterState σ α)
    (e : InboundEvent) (h : waiterInv w) :
    waiterInv (waiterStep route handler w e) := by
  obtain ⟨h1, h2⟩ := h
  unfold waiterStep
  split
  · rename_i hsub
    split
    · have houtc : w.outcome = none := by
        cases ho : w.outcome with
        | none => rfl
        | some r => rw [ho] at h1; rw [hsub] at h1; simp at h1
      have hrc : w.removeCount = 0 := by
        rw [h2, houtc]
        rfl
      split
      · exact ⟨rfl, by simp [hrc]⟩
      · exact ⟨rfl, by simp [hrc]⟩
    · exact ⟨h1, h2⟩
  · exact ⟨h1, h2⟩

theorem waiterRun_inv {σ α : Type} (route : String)
    (handler : Params → σ → Except Err α × σ) :
    ∀ (events : List InboundEvent) (w : WaiterState σ α),
      waiterInv w → waiterInv (waiterRun route handler events w)
  | [], _, h => h
  | e :: rest, w, h =>
    waiterRun_inv route handler rest (waiterStep route handler w e)
      (waiterStep_inv route handler w e h)

-- Helper facts for the connectedness guard analysis.

theorem decryptPayload_ne_notConnected (dataText nonceText : String)
    (ss : Bytes) :
    decryptPayload dataText nonceText ss ≠ .error .notConnected := by
  unfold decryptPayload
  repeat' split
  all_goals simp

theorem signTransactionOnResponse_ne_notConnected (ss : Bytes) (p : Params) :
    signTransactionOnResponse ss p ≠ .error .notConnected := by
  unfold signTransactionOnResponse
  split
  · split
    · rename_i e heq
      intro hcon
      injection hcon with h1
      rw [h1] at heq
      exact decryptPayload_ne_notConnected _ _ ss heq
    · repeat' split
      all_goals simp
  · simp

theorem signMessageOnResponse_ne_notConnected (ss : Bytes) (p : Params) :
    signMessageOnResponse ss p ≠ .error .notConnected := by
  unfold signMessageOnResponse
  split
  · split
    · rename_i e heq
      intro hcon
      injection hcon with h1
      rw [h1] at heq
      exact decryptPayload_ne_notConnected _ _ ss heq
    · repeat' split
      all_goals simp
  · simp

-- Claim theorems.

/-- C9.  The connection-status fields published through the provider
context are constants, independent of the protocol state: in every
provider state the context value has connected = true and
connecting = false (lines 95 and 96 fix them as constants and no operation
ever writes them). -/
theorem context_connection_flags_constant (s : WalletState) :
    (contextValue s).connected = true ∧ (contextValue s).connecting = false :=
  ⟨rfl, rfl⟩

/-- C3.  `disconnect` is total and idempotent: from every state it sets
all four session fields to null, dispatches nothing to the transport, and
running it again from the resulting state changes nothing. -/
theorem disconnect_clears_all_and_idempotent (s : WalletState) :
    (disconnectOp s).1.publicKey = none ∧
    (disconnectOp s).1.keypair = none ∧
    (disconnectOp s).1.sharedSecret = none ∧
    (disconnectOp s).1.session = none ∧
    (disconnectOp s).2 = [] ∧
    disconnectOp (disconnectOp s).1 = disconnectOp s :=
  ⟨rfl, rfl, rfl, rfl, rfl, rfl⟩

/-- C2.  A sign operation invoked while the shared secret or the keypair
state is null rejects with the Wallet is not connected error, leaves the
state untouched, and produces no transport effect: no subscription is
created and `Linking.openURL` is never reached. -/
theorem sign_disconnected_rejects_without_dispatch
    (cfg : Config) (s : WalletState) (tx msg nonce : Bytes)
    (events : List InboundEvent)
    (h : s.sharedSecret = none ∨ s.keypair = none) :
    signTransactionOp cfg s tx nonce events
      = ⟨some (.error .notConnected), s, []⟩ ∧
    signMessageOp cfg s msg nonce events
      = ⟨some (.error .notConnected), s, []⟩ := by
  unfold signTransactionOp signMessageOp
  rcases h with h | h <;> rw [h]
  · cases s.keypair <;> exact ⟨rfl, rfl⟩
  · cases s.sharedSecret <;> exact ⟨rfl, rfl⟩

/-- Witness for C2 at the initial (fully disconnected) state. -/
theorem sign_disconnected_rejects_without_dispatch_witness :
    (initialState.sharedSecret = none ∨ initialState.keypair = none) ∧
    (signTransactionOp ⟨.mainnet, "https://app.example", "exampleapp://"⟩
        initialState [1] [2] []
      = ⟨some (.error .notConnected), initialState, []⟩ ∧
    signMessageOp ⟨.mainnet, "https://app.example", "exampleapp://"⟩
        initialState [3] [2] []
      = ⟨some (.error .notConnected), initialState, []⟩) :=
  ⟨Or.inl rfl,
    sign_disconnected_rejects_without_dispatch
      ⟨.mainnet, "https://app.example", "exampleapp://"⟩
      initialState [1] [3] [2] [] (Or.inl rfl)⟩

/-- C8.  Sign operations never write any of the four session fields: in
every state and for every inbound event stream — success, remote error,
decryption failure, decode failure, or a still-pending wait — the provider
state after `signTransaction` and after `signMessage` equals the state
before. -/
theorem sign_ops_preserve_session_state
    (cfg : Config) (s : WalletState) (tx msg nonce : Bytes)
    (events : List InboundEvent) :
    (signTransactionOp cfg s tx nonce events).state = s ∧
    (signMessageOp cfg s msg nonce events).state = s := by
  obtain ⟨pk, kp, ss, sess⟩ := s
  constructor
  · unfold signTransactionOp
    cases ss with
    | none => cases kp <;> rfl
    | some ssv =>
      cases kp with
      | none => rfl
      | some kpv =>
        exact waiterRun_state_const "onSignTransaction"
          (fun p st => (signTransactionOnResponse ssv p, st))
          (fun _ _ => rfl) events _
  · unfold signMessageOp
    cases ss with
    | none => cases kp <;> rfl
    | some ssv =>
      cases kp with
      | none => rfl
      | some kpv =>
        exact waiterRun_state_const "onSignMessage"
          (fun p st => (signMessageOnResponse ssv p, st))
          (fun _ _ => rfl) events _

/-- C6.  For every `waitForResponse` call and every inbound event stream,
the subscription is removed exactly once upon settlement of the promise,
on every settlement path (remote error, handler success, handler throw):
`event.remove()` has run once exactly when the outcome is settled, and the
listener is registered exactly while the promise is pending. -/
theorem waiter_unsubscribes_exactly_once_on_settle
    {σ α : Type} (route : String)
    (handler : Params → σ → Except Err α × σ)
    (events : List InboundEvent) (s : σ) :
    (waiterRun route handler events (waiterInit s : WaiterState σ α)).removeCount
      = (if (waiterRun route handler events
          (waiterInit s : WaiterState σ α)).outcome.isSome then 1 else 0) ∧
    (waiterRun route handler events (waiterInit s : WaiterState σ α)).subscribed
      = (waiterRun route handler events
          (waiterInit s : WaiterState σ α)).outcome.isNone := by
  have h := waiterRun_inv route handler events
    (waiterInit s : WaiterState σ α) ⟨rfl, rfl⟩
  exact ⟨h.2, h.1⟩

theorem waiterRun_append {σ α : Type} (route : String)
    (handler : Params → σ → Except Err α × σ)
    (l₁ l₂ : List InboundEvent) (w : WaiterState σ α) :
    waiterRun route handler (l₁ ++ l₂) w
      = waiterRun route handler l₂ (waiterRun route handler l₁ w) := by
  unfold waiterRun
  exact List.foldl_append _ _ _ _

/-- C7.  Route isolation: the outcome and state effects of a
`waitForResponse` call are determined solely by the subsequence of inbound
events whose path matches its own route — every waiter sees the whole
shared stream and ignores non-matching events, so two concurrent waiters
on different routes each resolve only from their own events, under any
interleaving. -/
theorem route_isolation {σ₁ α₁ σ₂ α₂ : Type} (r₁ r₂ : String)
    (h₁ : Params → σ₁ → Except Err α₁ × σ₁)
    (h₂ : Params → σ₂ → Except Err α₂ × σ₂)
    (events : List InboundEvent) (s₁ : σ₁) (s₂ : σ₂)
    (_hne : r₁ ≠ r₂) :
    waitForResponse r₁ h₁ events s₁
      = waitForResponse r₁ h₁
        (events.filter (fun e => routeMatches r₁ e.pathname)) s₁ ∧
    waitForResponse r₂ h₂ events s₂
      = waitForResponse r₂ h₂
        (events.filter (fun e => routeMatches r₂ e.pathname)) s₂ := by
  constructor
  · simp only [waitForResponse]
    rw [waiterRun_filter r₁ h₁ events]
  · simp only [waitForResponse]
    rw [waiterRun_filter r₂ h₂ events]

/-- Witness for C7: two waiters on the onConnect and onSignMessage routes
over one interleaved stream. -/
theorem route_isolation_witness :
    ("onConnect" : String) ≠ "onSignMessage" ∧
    (waitForResponse "onConnect"
        (fun (_ : Params) (st : Unit) => (Except.ok (1 : Nat), st))
        [⟨"/onSignMessage", []⟩, ⟨"/onConnect", []⟩] ()
      = waitForResponse "onConnect"
        (fun (_ : Params) (st : Unit) => (Except.ok (1 : Nat), st))
        ([(⟨"/onSignMessage", []⟩ : InboundEvent),
          ⟨"/onConnect", []⟩].filter
          (fun e => routeMatches "onConnect" e.pathname)) () ∧
    waitForResponse "onSignMessage"
        (fun (_ : Params) (st : Unit) => (Except.ok (2 : Nat), st))
        [⟨"/onSignMessage", []⟩, ⟨"/onConnect", []⟩] ()
      = waitForResponse "onSignMessage"
        (fun (_ : Params) (st : Unit) => (Except.ok (2 : Nat), st))
        ([(⟨"/onSignMessage", []⟩ : InboundEvent),
          ⟨"/onConnect", []⟩].filter
          (fun e => routeMatches "onSignMessage" e.pathname)) ()) :=
  ⟨by decide,
    route_isolation "onConnect" "onSignMessage" _ _ _ () () (by decide)⟩

/-- C5 counterexample: an inbound event that carries the errorCode
parameter with the empty value.  The source tests
`if (params.get('errorCode'))`, and the empty string is falsy in JS, so
the waiter does not reject with the remote error — it runs the handler and
resolves — even though the event carries an errorCode parameter. -/
theorem waiter_empty_errorCode_resolves :
    findParam "errorCode" [("errorCode", "")] = some "" ∧
    (waitForResponse "onConnect"
        (fun (_ : Params) (st : Unit) => (Except.ok (7 : Nat), st))
        [⟨"/onConnect", [("errorCode", "")]⟩] ()).1
      = some (.ok 7) :=
  ⟨rfl, rfl⟩

/-- C5 (amended).  The first event whose path matches the route determines
the outcome of a `waitForResponse` call: if that event carries an
errorCode parameter with a non-empty value the promise rejects with the
remote error; otherwise (errorCode absent or empty) it settles with the
handler result — resolution, or rejection with the error the handler
raises — and the handler state effects; events after the first match,
matching or not, are not observed by this waiter. -/
theorem first_match_determines_outcome {σ α : Type} (route : String)
    (handler : Params → σ → Except Err α × σ)
    (pre post : List InboundEvent) (e : InboundEvent) (s : σ)
    (hpre : ∀ x ∈ pre, routeMatches route x.pathname = false)
    (he : routeMatches route e.pathname = true) :
    waitForResponse route handler (pre ++ e :: post) s
      = (if jsTruthy (findParam "errorCode" e.params) then
          (some (.error .remoteError), s)
        else
          (some (handler e.params s).1, (handler e.params s).2)) := by
  simp only [waitForResponse]
  rw [waiterRun_append, waiterRun_nomatch route handler pre
    (waiterInit s) hpre]
  show ((waiterRun route handler post
      (waiterStep route handler (waiterInit s) e)).outcome,
    (waiterRun route handler post
      (waiterStep route handler (waiterInit s) e)).state) = _
  rw [waiterStep_first_match route handler e s he]
  by_cases herr : jsTruthy (findParam "errorCode" e.params)
  · rw [if_pos herr, if_pos herr,
      waiterRun_unsubscribed route handler post _ rfl]
  · rw [if_neg herr, if_neg herr,
      waiterRun_unsubscribed route handler post _ rfl]

/-- Witness for C5 (amended): one non-matching event, then a matching
event carrying errorCode 4001, then a further matching event that is not
observed; the waiter rejects with the remote error. -/
theorem first_match_determines_outcome_witness :
    (∀ x ∈ [(⟨"/other", []⟩ : InboundEvent)],
        routeMatches "onConnect" x.pathname = false) ∧
    routeMatches "onConnect" "/onConnect" = true ∧
    waitForResponse "onConnect"
        (fun (_ : Params) (st : Unit) => (Except.ok (3 : Nat), st))
        ([⟨"/other", []⟩] ++
          ⟨"/onConnect", [("errorCode", "4001")]⟩ ::
            [(⟨"/onConnect", []⟩ : InboundEvent)]) ()
      = (some (Except.error Err.remoteError), ()) :=
  ⟨by decide, by decide,
    first_match_determines_outcome "onConnect"
      (fun (_ : Params) (st : Unit) => (Except.ok (3 : Nat), st))
      [⟨"/other", []⟩] [⟨"/onConnect", []⟩]
      ⟨"/onConnect", [("errorCode", "4001")]⟩ ()
      (by decide) (by decide)⟩

/-- C4.  Round-trip and authentication of the payload cipher: decrypting
an encrypted payload under the same shared secret returns the payload;
`decryptPayload` fails with the Unable to decrypt data error whenever the
authenticated opening of the decoded ciphertext fails; and a successful
`decryptPayload` only ever returns a payload obtained from a successful
authenticated opening — never unauthenticated plaintext. -/
theorem encrypt_decrypt_roundtrip_and_auth :
    (∀ (p : JsonObj) (s nonce : Bytes), s.length = 32 →
      decryptPayload (bs58encodeS (encryptPayload p s nonce).2)
        (bs58encodeS (encryptPayload p s nonce).1) s = .ok p) ∧
    (∀ (dataText nonceText : String) (s d n : Bytes),
      bs58decodeS dataText = some d →
      bs58decodeS nonceText = some n →
      nacl_box_open_after d n s = none →
      decryptPayload dataText nonceText s = .error .decryptionFailed) ∧
    (∀ (dataText nonceText : String) (s : Bytes) (p : JsonObj),
      decryptPayload dataText nonceText s = .ok p →
      ∃ d n pt, bs58decodeS dataText = some d ∧
        bs58decodeS nonceText = some n ∧
        nacl_box_open_after d n s = some pt ∧
        decodePayload pt = some p) := by
  refine ⟨fun p s nonce _ => decryptPayload_encryptPayload p s nonce, ?_, ?_⟩
  · intro dataText nonceText s d n hd hn hopen
    simp [decryptPayload, hd, hn, hopen]
  · intro dataText nonceText s p h
    unfold decryptPayload at h
    cases hd : bs58decodeS dataText with
    | none => rw [hd] at h; dsimp only at h; exact absurd h (by simp)
    | some d =>
      rw [hd] at h
      dsimp only at h
      cases hn : bs58decodeS nonceText with
      | none => rw [hn] at h; dsimp only at h; exact absurd h (by simp)
      | some n =>
        rw [hn] at h
        dsimp only at h
        cases ho : nacl_box_open_after d n s with
        | none => rw [ho] at h; dsimp only at h; exact absurd h (by simp)
        | some pt =>
          rw [ho] at h
          dsimp only at h
          cases hq : decodePayload pt with
          | none => rw [hq] at h; dsimp only at h; exact absurd h (by simp)
          | some obj =>
            rw [hq] at h
            dsimp only at h
            injection h with h
            exact ⟨d, n, pt, rfl, rfl, ho, h ▸ hq⟩

/-- Witness for C4: a round trip at a 32-byte secret, a failing opening at
mismatched key material, and the successful case exposing its
authenticated opening. -/
theorem encrypt_decrypt_roundtrip_and_auth_witness :
    ((List.replicate 32 0 : Bytes).length = 32 ∧
      decryptPayload
        (bs58encodeS (encryptPayload [("a", JsonVal.jnull)]
          (List.replicate 32 0) (List.replicate 24 0)).2)
        (bs58encodeS (encryptPayload [("a", JsonVal.jnull)]
          (List.replicate 32 0) (List.replicate 24 0)).1)
        (List.replicate 32 0) = .ok [("a", JsonVal.jnull)]) ∧
    (bs58decodeS (bs58encodeS [5]) = some [5] ∧
      bs58decodeS (bs58encodeS []) = some [] ∧
      nacl_box_open_after [5] [] [] = none ∧
      decryptPayload (bs58encodeS [5]) (bs58encodeS []) []
        = .error .decryptionFailed) ∧
    (decryptPayload (bs58encodeS (encryptPayload [("b", JsonVal.jnull)]
          [3] [4]).2)
        (bs58encodeS (encryptPayload [("b", JsonVal.jnull)] [3] [4]).1)
        [3] = .ok [("b", JsonVal.jnull)] ∧
      ∃ d n pt,
        bs58decodeS (bs58encodeS (encryptPayload [("b", JsonVal.jnull)]
          [3] [4]).2) = some d ∧
        bs58decodeS (bs58encodeS (encryptPayload [("b", JsonVal.jnull)]
          [3] [4]).1) = some n ∧
        nacl_box_open_after d n [3] = some pt ∧
        decodePayload pt = some [("b", JsonVal.jnull)]) :=
  ⟨⟨by decide, encrypt_decrypt_roundtrip_and_auth.1 _ _ _ (by decide)⟩,
    ⟨rfl, rfl, rfl,
      encrypt_decrypt_roundtrip_and_auth.2.1 _ _ _ _ _ rfl rfl rfl⟩,
    ⟨rfl, encrypt_decrypt_roundtrip_and_auth.2.2 _ _ _ _ rfl⟩⟩

/-- C10.  The connectedness guard of the sign operations tests only the
shared secret and the keypair: a sign operation rejects with the Wallet is
not connected error exactly when the sharedSecret state or the keypair
state is null; in a state where the session is null but both of those are
present, the operation proceeds and dispatches a request whose encrypted
payload carries the session field with value null. -/
theorem sign_guard_tests_only_secret_and_keypair
    (cfg : Config) (s : WalletState) (tx msg nonce : Bytes)
    (events : List InboundEvent) :
    ((signTransactionOp cfg s tx nonce events).outcome
        = some (.error .notConnected)
      ↔ (s.sharedSecret = none ∨ s.keypair = none)) ∧
    ((signMessageOp cfg s msg nonce events).outcome
        = some (.error .notConnected)
      ↔ (s.sharedSecret = none ∨ s.keypair = none)) ∧
    (∀ ss kp, s.sharedSecret = some ss → s.keypair = some kp →
      s.session = none →
      ∃ reqParams payloadText nonceText obj,
        (signTransactionOp cfg s tx nonce events).effects
          = [.subscribe "onSignTransaction",
            .openURL (buildUrl "signTransaction" reqParams)] ∧
        findParam "payload" reqParams = some payloadText ∧
        findParam "nonce" reqParams = some nonceText ∧
        decryptPayload payloadText nonceText ss = .ok obj ∧
        findField "session" obj = some .jnull) ∧
    (∀ ss kp, s.sharedSecret = some ss → s.keypair = some kp →
      s.session = none →
      ∃ reqParams payloadText nonceText obj,
        (signMessageOp cfg s msg nonce events).effects
          = [.subscribe "onSignMessage",
            .openURL (buildUrl "signMessage" reqParams)] ∧
        findParam "payload" reqParams = some payloadText ∧
        findParam "nonce" reqParams = some nonceText ∧
        decryptPayload payloadText nonceText ss = .ok obj ∧
        findField "session" obj = some .jnull) := by
  obtain ⟨pk, kpO, ssO, sessO⟩ := s
  refine ⟨?_, ?_, ?_, ?_⟩
  · show (signTransactionOp cfg ⟨pk, kpO, ssO, sessO⟩ tx nonce events).outcome
        = some (.error .notConnected) ↔ (ssO = none ∨ kpO = none)
    cases ssO with
    | none => cases kpO <;> exact ⟨fun _ => Or.inl rfl, fun _ => rfl⟩
    | some ssv =>
      cases kpO with
      | none => exact ⟨fun _ => Or.inr rfl, fun _ => rfl⟩
      | some kpv =>
        constructor
        · intro hcon
          exact absurd hcon (waiterRun_outcome_not "onSignTransaction"
            (fun p st => (signTransactionOnResponse ssv p, st))
            .notConnected (by simp)
            (fun p st => signTransactionOnResponse_ne_notConnected ssv p)
            events _ (by simp [waiterInit]))
        · rintro (hc | hc) <;> simp at hc
  · show (signMessageOp cfg ⟨pk, kpO, ssO, sessO⟩ msg nonce events).outcome
        = some (.error .notConnected) ↔ (ssO = none ∨ kpO = none)
    cases ssO with
    | none => cases kpO <;> exact ⟨fun _ => Or.inl rfl, fun _ => rfl⟩
    | some ssv =>
      cases kpO with
      | none => exact ⟨fun _ => Or.inr rfl, fun _ => rfl⟩
      | some kpv =>
        constructor
        · intro hcon
          exact absurd hcon (waiterRun_outcome_not "onSignMessage"
            (fun p st => (signMessageOnResponse ssv p, st))
            .notConnected (by simp)
            (fun p st => signMessageOnResponse_ne_notConnected ssv p)
            events _ (by simp [waiterInit]))
        · rintro (hc | hc) <;> simp at hc
  · intro ss kp hss hkp hsess
    simp only at hss hkp hsess
    subst hss
    subst hkp
    subst hsess
    refine ⟨[("dapp_encryption_public_key", bs58encodeS kp.publicKey),
        ("nonce", bs58encodeS
          (encryptPayload [("session", sessionJson none),
            ("transaction", .jstr (bs58encodeS tx))] ss nonce).1),
        ("redirect_link", cfg.protocol ++ "onSignTransaction"),
        ("payload", bs58encodeS
          (encryptPayload [("session", sessionJson none),
            ("transaction", .jstr (bs58encodeS tx))] ss nonce).2)],
      bs58encodeS (encryptPayload [("session", sessionJson none),
        ("transaction", .jstr (bs58encodeS tx))] ss nonce).2,
      bs58encodeS (encryptPayload [("session", sessionJson none),
        ("transaction", .jstr (bs58encodeS tx))] ss nonce).1,
      [("session", sessionJson none),
        ("transaction", .jstr (bs58encodeS tx))],
      rfl, rfl, rfl, ?_, rfl⟩
    exact decryptPayload_encryptPayload
      [("session", sessionJson none),
        ("transaction", .jstr (bs58encodeS tx))] ss nonce
  · intro ss kp hss hkp hsess
    simp only at hss hkp hsess
    subst hss
    subst hkp
    subst hsess
    refine ⟨[("dapp_encryption_public_key", bs58encodeS kp.publicKey),
        ("nonce", bs58encodeS
          (encryptPayload [("session", sessionJson none),
            ("message", .jstr (bs58encodeS msg))] ss nonce).1),
        ("redirect_link", cfg.protocol ++ "onSignMessage"),
        ("payload", bs58encodeS
          (encryptPayload [("session", sessionJson none),
            ("message", .jstr (bs58encodeS msg))] ss nonce).2)],
      bs58encodeS (encryptPayload [("session", sessionJson none),
        ("message", .jstr (bs58encodeS msg))] ss nonce).2,
      bs58encodeS (encryptPayload [("session", sessionJson none),
        ("message", .jstr (bs58encodeS msg))] ss nonce).1,
      [("session", sessionJson none),
        ("message", .jstr (bs58encodeS msg))],
      rfl, rfl, rfl, ?_, rfl⟩
    exact decryptPayload_encryptPayload
      [("session", sessionJson none),
        ("message", .jstr (bs58encodeS msg))] ss nonce

/-- Witness for C10 at a state with a session value of null but shared
secret and keypair present. -/
theorem sign_guard_tests_only_secret_and_keypair_witness :
    ((⟨none, some ⟨[1], [2]⟩, some [7], none⟩
        : WalletState).sharedSecret = some [7] ∧
      (⟨none, some ⟨[1], [2]⟩, some [7], none⟩
        : WalletState).keypair = some ⟨[1], [2]⟩ ∧
      (⟨none, some ⟨[1], [2]⟩, some [7], none⟩
        : WalletState).session = none) ∧
    ((signTransactionOp ⟨.devnet, "https://app.example", "exampleapp://"⟩
        ⟨none, some ⟨[1], [2]⟩, some [7], none⟩ [9] [3] []).outcome
        = some (.error .notConnected)
      ↔ ((⟨none, some ⟨[1], [2]⟩, some [7], none⟩
            : WalletState).sharedSecret = none ∨
          (⟨none, some ⟨[1], [2]⟩, some [7], none⟩
            : WalletState).keypair = none)) ∧
    (∃ reqParams payloadText nonceText obj,
      (signTransactionOp ⟨.devnet, "https://app.example", "exampleapp://"⟩
          ⟨none, some ⟨[1], [2]⟩, some [7], none⟩ [9] [3] []).effects
        = [.subscribe "onSignTransaction",
          .openURL (buildUrl "signTransaction" reqParams)] ∧
      findParam "payload" reqParams = some payloadText ∧
      findParam "nonce" reqParams = some nonceText ∧
      decryptPayload payloadText nonceText [7] = .ok obj ∧
      findField "session" obj = some .jnull) ∧
    (∃ reqParams payloadText nonceText obj,
      (signMessageOp ⟨.devnet, "https://app.example", "exampleapp://"⟩
          ⟨none, some ⟨[1], [2]⟩, some [7], none⟩ [4] [3] []).effects
        = [.subscribe "onSignMessage",
          .openURL (buildUrl "signMessage" reqParams)] ∧
      findParam "payload" reqParams = some payloadText ∧
      findParam "nonce" reqParams = some nonceText ∧
      decryptPayload payloadText nonceText [7] = .ok obj ∧
      findField "session" obj = some .jnull) :=
  ⟨⟨rfl, rfl, rfl⟩,
    (sign_guard_tests_only_secret_and_keypair
      ⟨.devnet, "https://app.example", "exampleapp://"⟩
      ⟨none, some ⟨[1], [2]⟩, some [7], none⟩ [9] [4] [3] []).1,
    (sign_guard_tests_only_secret_and_keypair
      ⟨.devnet, "https://app.example", "exampleapp://"⟩
      ⟨none, some ⟨[1], [2]⟩, some [7], none⟩ [9] [4] [3] []).2.2.1
      [7] ⟨[1], [2]⟩ rfl rfl rfl,
    (sign_guard_tests_only_secret_and_keypair
      ⟨.devnet, "https://app.example", "exampleapp://"⟩
      ⟨none, some ⟨[1], [2]⟩, some [7], none⟩ [9] [4] [3] []).2.2.2
      [7] ⟨[1], [2]⟩ rfl rfl rfl⟩

/-- C1 (code bug).  A connect callback whose envelope decrypts correctly
but whose decrypted payload has a null public_key field: the PublicKey
constructor throws only after `setKeypair`, `setSharedSecret` and
`setSession` have already run, so `connect` rejects yet leaves a partially
populated Session — keypair, sharedSecret and session installed, publicKey
still null — contradicting the all-or-nothing Session invariant the spec
states for every failure path of establish. -/
theorem connect_partial_session_on_bad_public_key :
    let response : InboundEvent :=
      ⟨"/onConnect",
        [("phantom_encryption_public_key",
            bs58encodeS (List.replicate 32 2)),
          ("data", bs58encodeS (nacl_box_after
            (encodePayload [("session", JsonVal.jstr "sid"),
              ("public_key", JsonVal.jnull)])
            (List.replicate 24 0)
            (encB (List.replicate 32 2) ++ encB (List.replicate 32 1)))),
          ("nonce", bs58encodeS (List.replicate 24 0))]⟩
    let r := connectOp ⟨.mainnet, "https://app.example", "exampleapp://"⟩
      ⟨List.replicate 32 0, List.replicate 32 1⟩ [response] initialState
    r.outcome = some (.error .invalidKey) ∧
    r.state.publicKey = none ∧
    r.state.keypair = some ⟨List.replicate 32 0, List.replicate 32 1⟩ ∧
    r.state.sharedSecret
      = some (encB (List.replicate 32 2) ++ encB (List.replicate 32 1)) ∧
    r.state.session = some "sid" := by
  intro response r
  exact ⟨rfl, rfl, rfl, rfl, rfl⟩

end Phantom
